import Mathlib

/-!
Shallow embedding of `src/ecommerce_agent.py` (later revision under
`src/src/ecommerce_agent.py`; the two revisions share the product-store,
output-interpreter and conversation-loop logic verbatim).

Python strings are embedded as `List Char`; the remote language model is
an oracle `List Char → List Char` mapping a prompt to the reply text.
-/

set_option maxRecDepth 4000

/-- Python strings, embedded as lists of characters. -/
abbrev Str := List Char

/-- Index of the first occurrence of `pat` as a contiguous substring of `s`
(`s.find(pat)` in Python), `none` when absent.  `findSubstr [] s = some 0`,
matching Python. -/
def findSubstr (pat : Str) : Str → Option Nat
  | [] => if pat.isPrefixOf ([] : Str) then some 0 else none
  | c :: rest =>
    if pat.isPrefixOf (c :: rest) then some 0
    else (findSubstr pat rest).map (· + 1)

/-- `pat in s` for Python strings. -/
def occursIn (pat s : Str) : Bool := (findSubstr pat s).isSome

/-- Split `s` at the first occurrence of `sep`: the part before it and the
part after it (the separator removed). -/
def splitFirst (sep s : Str) : Option (Str × Str) :=
  (findSubstr sep s).map (fun i => (s.take i, s.drop (i + sep.length)))

/-- The part of `s` before the first occurrence of `sep` (all of `s` when
`sep` does not occur): `s.split(sep)[0]`. -/
def upToFirst (sep s : Str) : Str :=
  match findSubstr sep s with
  | none => s
  | some i => s.take i

/-- Fuel-indexed worker for Python `str.split`. -/
def pySplitF (sep : Str) : Nat → Str → List Str
  | 0, s => [s]
  | fuel + 1, s =>
    match splitFirst sep s with
    | none => [s]
    | some (a, rest) => a :: pySplitF sep fuel rest

/-- Python `s.split(sep)` for a non-empty separator.  `s.length + 1` units
of fuel always suffice because each removed separator is non-empty. -/
def pySplit (sep s : Str) : List Str := pySplitF sep (s.length + 1) s

/-- The `output.split(marker)[1]` step of the interpreter: `none` models the
`IndexError` raised when the marker is absent. -/
def pyIndex1 (xs : List Str) : Option Str := xs.get? 1

/-- Argument extraction of `_handle_product_details` / `_handle_search_products`:
`output.split(marker)[1].split('"')[0]`, with `none` for the caught
`IndexError` when the marker is absent. -/
def pyExtract (marker s : Str) : Option Str :=
  match pyIndex1 (pySplit marker s) with
  | none => none
  | some seg => some ((pySplit "\"".toList seg).headD [])

/-- The literal marker `product_id="` searched by `_handle_product_details`. -/
def productIdMarker : Str := "product_id=\"".toList

/-- The literal marker `search_term="` searched by `_handle_search_products`. -/
def searchTermMarker : Str := "search_term=\"".toList

/-- Python `str.lower`, modelled characterwise. -/
def pyLower (s : Str) : Str := s.map Char.toLower

/-- The exit keyword `退出` compared against the lowercased input line. -/
def exitKeyword : Str := "退出".toList

/-- One product record as stored in `products.json`: a mapping value with
name, price, stock and description fields. -/
structure Product where
  name : Str
  price : Int
  stock : Int
  description : Str
deriving DecidableEq

/-- The flat dictionary `{"id": id, **product}` returned by the store: a
fresh record built from the identifier and the stored fields. -/
structure ProductOut where
  id : Str
  name : Str
  price : Int
  stock : Int
  description : Str
deriving DecidableEq

/-- Building `{"id": id, **product}`. -/
def productOut (id : Str) (p : Product) : ProductOut :=
  ⟨id, p.name, p.price, p.stock, p.description⟩

/-- `self.products`: the JSON catalog, a mapping from identifier strings to
product records, in insertion order. -/
abbrev Catalog := List (Str × Product)

/-- The keys of the catalog dictionary. -/
def catalogKeys (db : Catalog) : List Str := db.map Prod.fst

/-- Dictionary access `self.products[product_id]` (first matching key). -/
def lookupDict (db : Catalog) (pid : Str) : Option Product :=
  match db with
  | [] => none
  | (k, v) :: rest => if k = pid then some v else lookupDict rest pid

/-- `ProductDatabase.get_product_details`: the stored record extended with
its identifier when `product_id in self.products`, otherwise `None`. -/
def get_product_details (db : Catalog) (pid : Str) : Option ProductOut :=
  match lookupDict db pid with
  | some p => some (productOut pid p)
  | none => none

/-- `AgentConfig`: the dataclass of configuration defaults. -/
structure AgentConfig where
  model_name : Str
  base_url : Str
  max_search_results : Int
  min_match_score : Int
deriving DecidableEq

/-- The default `AgentConfig` values from the dataclass. -/
def defaultAgentConfig : AgentConfig :=
  ⟨"deepseek-ai/DeepSeek-V2.5".toList, "https://api.siliconflow.cn/v1".toList, 10, 5⟩

/-- The remote model as an oracle: reply text as a function of prompt text. -/
abbrev Oracle := Str → Str

/-- A maximal run of decimal digits read as a natural number; `none` when
empty or containing a non-digit. -/
def digitsToNat (ds : Str) : Option Nat :=
  if ds ≠ [] ∧ ds.all Char.isDigit then
    some (ds.foldl (fun acc c => 10 * acc + (c.toNat - '0'.toNat)) 0)
  else none

/-- Whitespace stripped from both ends, as `int()` does before parsing. -/
def stripWs (s : Str) : Str :=
  ((s.dropWhile Char.isWhitespace).reverse.dropWhile Char.isWhitespace).reverse

/-- Python `int(s)` on a decimal string: optional sign and digits after
stripping surrounding whitespace; `none` models the raised `ValueError`. -/
def pyInt (s : Str) : Option Int :=
  match stripWs s with
  | '+' :: ds => (digitsToNat ds).map Int.ofNat
  | '-' :: ds => (digitsToNat ds).map (fun n => -(n : Int))
  | ds => (digitsToNat ds).map Int.ofNat

/-- The fullwidth colon `：` used to split the model's score reply. -/
def fullColon : Str := "：".toList

/-- Score extraction in `search_products`:
`int(match_score.split("：")[1]) if "：" in match_score else int(match_score)`,
with `none` modelling a caught `ValueError`/`IndexError`. -/
def parseScore (ms : Str) : Option Int :=
  if occursIn fullColon ms then
    match pyIndex1 (pySplit fullColon ms) with
    | some seg => pyInt seg
    | none => none
  else pyInt ms

/-- The query-enhancement f-string sent once per search. -/
def enhancedQueryPrompt (query : Str) : Str :=
  "\n        请分析以下用户查询，提取最相关的产品搜索关键词：\n        用户查询：".toList
    ++ query
    ++ "\n        返回格式：关键词1, 关键词2, 关键词3\n        ".toList

/-- The per-candidate scoring f-string, built from the product's name and
description and the enhanced query. -/
def scorePrompt (p : Product) (enhanced : Str) : Str :=
  "\n            请评估产品与查询的匹配度（0-10分）：\n            产品：".toList
    ++ p.name ++ " ".toList ++ p.description
    ++ "\n            查询：".toList ++ enhanced
    ++ "\n            返回格式：分数\n            ".toList

/-- The scoring loop of `search_products` over the catalog items: collects
the included records and, in order, the scoring prompts sent to the model.
A candidate whose score reply fails to parse is skipped (`continue`). -/
def scoreLoop (model : Oracle) (enhanced : Str) : Catalog → List ProductOut × List Str
  | [] => ([], [])
  | (id, p) :: rest =>
    let sp := scorePrompt p enhanced
    let ms := model sp
    let (rs, cs) := scoreLoop model enhanced rest
    (match parseScore ms with
     | some score => if 1 ≤ score then productOut id p :: rs else rs
     | none => rs,
     sp :: cs)

/-- `ProductDatabase.search_products`: one query-enhancement call, then one
scoring call per catalog item; a record is appended when its parsed score is
at least `1`.  Returns the result list and the full list of prompts sent. -/
def search_products (model : Oracle) (db : Catalog) (query : Str) :
    List ProductOut × List Str :=
  let eqp := enhancedQueryPrompt query
  let enhanced := model eqp
  let (rs, cs) := scoreLoop model enhanced db
  (rs, eqp :: cs)

/-- Explicit-state form of `search_products`: the method reads
`self.products` and `self.model` and performs no assignment to either, so
the post-state is the pre-state. -/
def search_productsST (model : Oracle) (db : Catalog) (query : Str) :
    (List ProductOut × List Str) × Catalog :=
  (search_products model db query, db)

/-- Explicit-state form of `get_product_details`: the method only reads
`self.products`. -/
def get_product_detailsST (db : Catalog) (pid : Str) :
    Option ProductOut × Catalog :=
  (get_product_details db pid, db)

/-- Python `repr` of a string value, as it appears inside `str()` of a dict
(quoting only; escape sequences inside the text are not modelled, no claim
depends on them). -/
def pyReprStr (s : Str) : Str := Char.ofNat 39 :: (s ++ [Char.ofNat 39])

/-- Python `str()` of the `{"id": ..., **product}` dict interpolated into the
summary f-strings. -/
def renderProductOut (r : ProductOut) : Str :=
  "\x7b\x27id\x27: ".toList ++ pyReprStr r.id
    ++ ", \x27name\x27: ".toList ++ pyReprStr r.name
    ++ ", \x27price\x27: ".toList ++ (toString r.price).toList
    ++ ", \x27stock\x27: ".toList ++ (toString r.stock).toList
    ++ ", \x27description\x27: ".toList ++ pyReprStr r.description
    ++ "\x7d".toList

/-- Python `str()` of a list of result dicts. -/
def renderResults (rs : List ProductOut) : Str :=
  "[".toList ++ List.intercalate ", ".toList (rs.map renderProductOut) ++ "]".toList

/-- The summary f-string of `_handle_product_details`. -/
def detailsSummaryPrompt (r : ProductOut) : Str :=
  "请用简洁的语言概括以下产品信息，突出主要特点和优势：\n".toList ++ renderProductOut r

/-- The summary f-string of `_handle_search_products`. -/
def searchSummaryPrompt (rs : List ProductOut) : Str :=
  "请用简洁的语言概括以下搜索结果，突出主要产品特点和优势：\n".toList ++ renderResults rs

/-- The reported outcome of `_handle_product_details`. -/
inductive DetailsOutcome where
  /-- Product found: summary printed, full details printed. -/
  | found (summary : Str) (info : ProductOut)
  /-- `get_product_details` returned `None`: warning printed. -/
  | notFound
  /-- Marker absent: `IndexError` caught, error printed. -/
  | idParseError
deriving DecidableEq

/-- `EcommerceAgent._handle_product_details`, returning its reported outcome
and the prompts it sends to `self.model`. -/
def handle_product_details (chatModel : Oracle) (db : Catalog) (output : Str) :
    DetailsOutcome × List Str :=
  match pyExtract productIdMarker output with
  | none => (.idParseError, [])
  | some pid =>
    match get_product_details db pid with
    | some info =>
      let sp := detailsSummaryPrompt info
      (.found (chatModel sp) info, [sp])
    | none => (.notFound, [])

/-- The reported outcome of `_handle_search_products`. -/
inductive SearchOutcome where
  /-- Non-empty results: summary printed, full results printed. -/
  | results (summary : Str) (found : List ProductOut)
  /-- Empty result list: warning printed. -/
  | noResults
  /-- Extracted term is empty (falsy): no-valid-keyword warning, no search. -/
  | noKeyword
  /-- Marker absent: `IndexError` caught, error printed. -/
  | termParseError
deriving DecidableEq

/-- `EcommerceAgent._handle_search_products`, returning its reported outcome
and, in order, every prompt sent to the model during the turn (the scoring
calls of `search_products` followed by the summary call, if any). -/
def handle_search_products (chatModel dbModel : Oracle) (db : Catalog)
    (output : Str) : SearchOutcome × List Str :=
  match pyExtract searchTermMarker output with
  | none => (.termParseError, [])
  | some term =>
    if term = [] then (.noKeyword, [])
    else
      let (rs, cs) := search_products dbModel db term
      if rs = [] then (.noResults, cs)
      else
        let sp := searchSummaryPrompt rs
        (.results (chatModel sp) rs, cs ++ [sp])

/-- The literal tool name scanned for first by `run`. -/
def detailsToolName : Str := "get_product_details".toList

/-- The literal tool name scanned for second by `run`. -/
def searchToolName : Str := "search_products".toList

/-- Which branch of `run`'s `if/elif/else` dispatch fires for a reply. -/
inductive Dispatch where
  /-- `"get_product_details" in output`. -/
  | details
  /-- `"search_products" in output` and the first test failed. -/
  | search
  /-- Neither tool name occurs: the raw output is printed. -/
  | plain
deriving DecidableEq

/-- The dispatch decision of `run` on the agent-executor output. -/
def dispatchOutput (output : Str) : Dispatch :=
  if occursIn detailsToolName output then .details
  else if occursIn searchToolName output then .search
  else .plain

/-- What one non-exit iteration of `run` did. -/
inductive TurnResult where
  /-- Dispatched to `_handle_product_details`. -/
  | details (o : DetailsOutcome) (calls : List Str)
  /-- Dispatched to `_handle_search_products`. -/
  | search (o : SearchOutcome) (calls : List Str)
  /-- Neither tool name in the output: it is printed as-is. -/
  | plain (output : Str)
deriving DecidableEq

/-- The body of `run`'s `try` block on one input line: invoke the agent
executor, then dispatch on the tool names occurring in its output. -/
def processTurn (exec chatModel dbModel : Oracle) (db : Catalog)
    (line : Str) : TurnResult :=
  let output := exec line
  match dispatchOutput output with
  | .details =>
    let (o, cs) := handle_product_details chatModel db output
    .details o cs
  | .search =>
    let (o, cs) := handle_search_products chatModel dbModel db output
    .search o cs
  | .plain => .plain output

/-- `EcommerceAgent.run` over a list of available input lines: each line is
compared (lowercased) against the exit keyword; a match breaks the loop,
any other line is processed (all exceptions in the turn body are caught)
and the next line is read.  Returns the processed turns and whether the
loop terminated via the exit keyword within the given lines. -/
def run (exec chatModel dbModel : Oracle) (db : Catalog) :
    List Str → List TurnResult × Bool
  | [] => ([], false)
  | line :: rest =>
    if pyLower line = exitKeyword then ([], true)
    else
      let t := processTurn exec chatModel dbModel db line
      let (ts, b) := run exec chatModel dbModel db rest
      (t :: ts, b)

/-- The `ValueError` message raised by `_load_environment`. -/
def envErrorMsg : Str := "DEEPSEEK_API_KEY 未在环境变量中设置".toList

/-- `EcommerceAgent._load_environment` in the later revision: raises
`ValueError` when `os.getenv("DEEPSEEK_API_KEY")` is unset or falsy; the
`except` clause re-raises, so the error propagates to the caller. -/
def load_environment (apiKey : Option Str) : Except Str Unit :=
  match apiKey with
  | none => .error envErrorMsg
  | some v => if v = [] then .error envErrorMsg else .ok ()

/-- `EcommerceAgent.__init__` followed by `run`, as executed by the
`__main__` block: `_load_environment` runs first inside `__init__` and any
exception it raises propagates uncaught, ending the program before the
conversation loop starts. -/
def programMain (apiKey : Option Str) (exec chatModel dbModel : Oracle)
    (db : Catalog) (inputs : List Str) : Except Str (List TurnResult × Bool) :=
  match load_environment apiKey with
  | .error e => .error e
  | .ok _ => .ok (run exec chatModel dbModel db inputs)

/-- The spec's description of argument extraction, taken literally: the
substring of `s` strictly between the first occurrence of the marker and
the next double quote after it. -/
def specExtractClaimed (marker s : Str) : Option Str :=
  (findSubstr marker s).bind (fun i =>
    let tail := s.drop (i + marker.length)
    (findSubstr "\"".toList tail).map (fun k => tail.take k))

/-- The extraction the code actually performs, stated independently of
`split` semantics: the text after the first marker occurrence, truncated at
the next marker occurrence (if any) and then at the next double quote (if
any). -/
def specExtractActual (marker s : Str) : Option Str :=
  (findSubstr marker s).map (fun i =>
    let tail := s.drop (i + marker.length)
    let cut :=
      match findSubstr marker tail with
      | none => tail
      | some j => tail.take j
    match findSubstr "\"".toList cut with
    | none => cut
    | some k => cut.take k)

/-- The search the claim describes: a record is included exactly when its
parsed score exceeds the configured `min_match_score` threshold. -/
def search_productsClaimed (cfg : AgentConfig) (model : Oracle) (db : Catalog)
    (query : Str) : List ProductOut :=
  let enhanced := model (enhancedQueryPrompt query)
  db.filterMap (fun e =>
    match parseScore (model (scorePrompt e.2 enhanced)) with
    | some score =>
      if cfg.min_match_score < score then some (productOut e.1 e.2) else none
    | none => none)

/-- A sample stored product used to instantiate theorems. -/
def sampleProduct1 : Product :=
  ⟨"智能手机".toList, 5999, 10, "旗舰机型".toList⟩

/-- A second sample stored product. -/
def sampleProduct2 : Product :=
  ⟨"智能手表".toList, 1999, 25, "运动款".toList⟩

/-- A sample two-item catalog. -/
def sampleCatalog : Catalog :=
  [("1001".toList, sampleProduct1), ("1002".toList, sampleProduct2)]

/-- An oracle replying `3` to every prompt: every score parses to `3`. -/
def oracleScore3 : Oracle := fun _ => "3".toList

/-- An oracle replying `5` to every prompt: every score parses to `5`. -/
def oracleScore5 : Oracle := fun _ => "5".toList

/-- An oracle replying non-numeric text: every score parse fails. -/
def oracleBad : Oracle := fun _ => "无法评分".toList

/-- An agent-executor oracle emitting a reply that names both tools. -/
def oracleBothTools : Oracle :=
  fun _ => "get_product_details(product_id=\"1001\") search_products(search_term=\"x\")".toList

theorem findSubstr_spec {pat : Str} :
    ∀ {s : Str} {i : Nat}, findSubstr pat s = some i →
      i + pat.length ≤ s.length ∧ pat <+: s.drop i := by
  intro s
  induction s with
  | nil =>
    intro i h
    simp only [findSubstr] at h
    split at h
    · rename_i hp
      cases h
      have hle := (List.isPrefixOf_iff_prefix.mp hp).length_le
      simp at hle
      simp [hle, List.isPrefixOf_iff_prefix.mp hp]
    · exact absurd h (by simp)
  | cons c rest ih =>
    intro i h
    simp only [findSubstr] at h
    split at h
    · rename_i hp
      cases h
      refine ⟨?_, by simpa using List.isPrefixOf_iff_prefix.mp hp⟩
      have := (List.isPrefixOf_iff_prefix.mp hp).length_le
      simpa using this
    · rename_i hp
      rcases Option.map_eq_some'.mp h with ⟨j, hj, hij⟩
      rcases ih hj with ⟨h1, h2⟩
      subst hij
      constructor
      · simpa [List.length_cons] using Nat.succ_le_succ (by omega)
      · simpa using h2

theorem findSubstr_decomp {pat s : Str} {i : Nat}
    (h : findSubstr pat s = some i) :
    s = s.take i ++ pat ++ s.drop (i + pat.length) := by
  rcases findSubstr_spec h with ⟨hle, b, hb⟩
  have hdd : s.drop (i + pat.length) = b := by
    have h2 : List.drop (List.length pat) (List.drop i s) = b := by
      rw [← hb]
      exact List.drop_left pat b
    rw [← h2, List.drop_drop, Nat.add_comm i (List.length pat)]
  rw [hdd]
  conv_lhs => rw [← List.take_append_drop i s]
  rw [← hb, List.append_assoc]

theorem findSubstr_some_ne_nil {pat s : Str} {i : Nat} (hpat : pat ≠ [])
    (h : findSubstr pat s = some i) : 1 ≤ s.length := by
  have := (findSubstr_spec h).1
  have : 1 ≤ pat.length := List.length_pos.mpr hpat
  omega

theorem pySplitF_get0 {sep : Str} :
    ∀ {fuel : Nat} {s : Str}, 1 ≤ fuel →
      (pySplitF sep fuel s).get? 0 = some (upToFirst sep s) := by
  intro fuel s hfuel
  match fuel with
  | 0 => omega
  | f + 1 =>
    cases h : findSubstr sep s with
    | none => simp [pySplitF, splitFirst, upToFirst, h]
    | some i => simp [pySplitF, splitFirst, upToFirst, h]

theorem pySplit_head (sep s : Str) :
    (pySplit sep s).headD [] = upToFirst sep s := by
  have h := @pySplitF_get0 sep (s.length + 1) s (by omega)
  rw [pySplit]
  cases hx : pySplitF sep (s.length + 1) s with
  | nil => rw [hx] at h; simp at h
  | cons a l => rw [hx] at h; simp at h; simp [h]

theorem pySplit_get1 {sep : Str} (hsep : sep ≠ []) (s : Str) :
    (pySplit sep s).get? 1 =
      (findSubstr sep s).map (fun i => upToFirst sep (s.drop (i + sep.length))) := by
  cases h : findSubstr sep s with
  | none => simp [pySplit, pySplitF, splitFirst, h]
  | some i =>
    have hlen : 1 ≤ s.length := findSubstr_some_ne_nil hsep h
    have hunfold : pySplit sep s
        = s.take i :: pySplitF sep s.length (s.drop (i + sep.length)) := by
      simp [pySplit, pySplitF, splitFirst, h]
    rw [hunfold]
    simp only [List.get?_cons_succ, List.get?]
    rw [show (pySplitF sep s.length (s.drop (i + sep.length))).get? 0
          = some (upToFirst sep (s.drop (i + sep.length))) from pySplitF_get0 hlen]
    rfl

theorem pyExtract_eq_actual {marker : Str} (hm : marker ≠ []) (s : Str) :
    pyExtract marker s = specExtractActual marker s := by
  rw [pyExtract, pyIndex1, pySplit_get1 hm]
  cases h : findSubstr marker s with
  | none => simp [specExtractActual, h]
  | some i =>
    simp only [Option.map_some', specExtractActual, h]
    rw [pySplit_head]
    simp [upToFirst]

theorem pyExtract_none_of_absent {marker : Str} (hm : marker ≠ []) {s : Str}
    (h : findSubstr marker s = none) : pyExtract marker s = none := by
  rw [pyExtract, pyIndex1, pySplit_get1 hm, h]
  rfl

theorem scoreLoop_calls (model : Oracle) (enhanced : Str) :
    ∀ db : Catalog,
      (scoreLoop model enhanced db).2 = db.map (fun e => scorePrompt e.2 enhanced) := by
  intro db
  induction db with
  | nil => rfl
  | cons e rest ih =>
    obtain ⟨id, p⟩ := e
    simp [scoreLoop, ih]

/-- The candidate filter applied by the scoring loop to one catalog item. -/
def scoreFilter (model : Oracle) (enhanced : Str) (e : Str × Product) :
    Option ProductOut :=
  match parseScore (model (scorePrompt e.2 enhanced)) with
  | some score => if 1 ≤ score then some (productOut e.1 e.2) else none
  | none => none

theorem scoreLoop_eq_filterMap (model : Oracle) (enhanced : Str) :
    ∀ db : Catalog,
      (scoreLoop model enhanced db).1 = db.filterMap (scoreFilter model enhanced) := by
  intro db
  induction db with
  | nil => rfl
  | cons e rest ih =>
    obtain ⟨id, p⟩ := e
    cases hps : parseScore (model (scorePrompt p enhanced)) with
    | none => simp [scoreLoop, List.filterMap_cons, scoreFilter, hps, ih]
    | some sc =>
      by_cases h1 : 1 ≤ sc <;>
        simp [scoreLoop, List.filterMap_cons, scoreFilter, hps, h1, ih]

theorem scoreLoop_mem (model : Oracle) (enhanced : Str) (db : Catalog)
    (r : ProductOut) :
    r ∈ (scoreLoop model enhanced db).1 ↔
      ∃ id p score, (id, p) ∈ db ∧ r = productOut id p ∧
        parseScore (model (scorePrompt p enhanced)) = some score ∧ 1 ≤ score := by
  rw [scoreLoop_eq_filterMap, List.mem_filterMap]
  constructor
  · rintro ⟨⟨id, p⟩, hmem, hf⟩
    cases hps : parseScore (model (scorePrompt p enhanced)) with
    | none => simp [scoreFilter, hps] at hf
    | some sc =>
      by_cases h1 : 1 ≤ sc
      · simp only [scoreFilter, hps, if_pos h1, Option.some.injEq] at hf
        exact ⟨id, p, sc, hmem, hf.symm, hps, h1⟩
      · simp [scoreFilter, hps, h1] at hf
  · rintro ⟨id, p, sc, hmem, hr, hps, h1⟩
    refine ⟨(id, p), hmem, ?_⟩
    simp [scoreFilter, hps, h1, hr]

theorem scoreLoop_skip (model : Oracle) (enhanced : Str) {id : Str} {p : Product}
    (hbad : parseScore (model (scorePrompt p enhanced)) = none) :
    ∀ (pre post : Catalog),
      (scoreLoop model enhanced (pre ++ (id, p) :: post)).1
        = (scoreLoop model enhanced (pre ++ post)).1 := by
  intro pre post
  rw [scoreLoop_eq_filterMap, scoreLoop_eq_filterMap, List.filterMap_append,
    List.filterMap_append, List.filterMap_cons]
  simp [scoreFilter, hbad]

theorem search_products_mem (model : Oracle) (db : Catalog) (query : Str)
    (r : ProductOut) :
    r ∈ (search_products model db query).1 ↔
      ∃ id p score, (id, p) ∈ db ∧ r = productOut id p ∧
        parseScore (model (scorePrompt p (model (enhancedQueryPrompt query))))
          = some score ∧ 1 ≤ score := by
  rw [search_products]
  exact scoreLoop_mem model _ db r

theorem lookupDict_isSome (db : Catalog) (pid : Str) :
    (lookupDict db pid).isSome = true ↔ pid ∈ catalogKeys db := by
  induction db with
  | nil => simp [lookupDict, catalogKeys]
  | cons e rest ih =>
    obtain ⟨k, v⟩ := e
    by_cases hk : k = pid
    · subst hk
      constructor
      · intro _
        exact List.mem_cons_self k (catalogKeys rest)
      · intro _
        simp [lookupDict]
    · simp only [lookupDict, if_neg hk, catalogKeys, List.map_cons, List.mem_cons]
      rw [ih]
      simp only [catalogKeys]
      constructor
      · intro h
        exact Or.inr h
      · rintro (h | h)
        · exact absurd h.symm hk
        · exact h

theorem lookupDict_mem {db : Catalog} {pid : Str} {p : Product}
    (h : lookupDict db pid = some p) : (pid, p) ∈ db := by
  induction db with
  | nil => simp [lookupDict] at h
  | cons e rest ih =>
    obtain ⟨k, v⟩ := e
    by_cases hk : k = pid
    · subst hk
      simp only [lookupDict, if_pos rfl] at h
      cases h
      exact List.mem_cons_self _ _
    · simp only [lookupDict, if_neg hk] at h
      exact List.mem_cons_of_mem _ (ih h)

theorem run_true_iff (exec chatModel dbModel : Oracle) (db : Catalog) :
    ∀ inputs : List Str,
      (run exec chatModel dbModel db inputs).2 = true ↔
        ∃ l ∈ inputs, pyLower l = exitKeyword := by
  intro inputs
  induction inputs with
  | nil => simp [run]
  | cons line rest ih =>
    by_cases h : pyLower line = exitKeyword
    · simp [run, h]
    · simp only [run, if_neg h]
      rw [show ((processTurn exec chatModel dbModel db line ::
            (run exec chatModel dbModel db rest).1,
            (run exec chatModel dbModel db rest).2)).2
          = (run exec chatModel dbModel db rest).2 from rfl]
      rw [ih]
      simp [h]

theorem run_cons_of_ne {exec chatModel dbModel : Oracle} {db : Catalog}
    {line : Str} (h : pyLower line ≠ exitKeyword) (rest : List Str) :
    run exec chatModel dbModel db (line :: rest)
      = (processTurn exec chatModel dbModel db line ::
          (run exec chatModel dbModel db rest).1,
         (run exec chatModel dbModel db rest).2) := by
  simp [run, h]

/-- C1: `get_product_details(id)` returns the stored record for `id`, with
its identifier field set to `id`, exactly when `id` is a key of the catalog,
and `None` otherwise. -/
theorem claim1_get_details_exact_match :
    ∀ (db : Catalog) (pid : Str),
      ((get_product_details db pid).isSome = true ↔ pid ∈ catalogKeys db) ∧
      (∀ p, lookupDict db pid = some p →
          get_product_details db pid = some (productOut pid p)) ∧
      (pid ∉ catalogKeys db → get_product_details db pid = none) := by
  intro db pid
  refine ⟨?_, ?_, ?_⟩
  · rw [← lookupDict_isSome]
    cases h : lookupDict db pid <;> simp [get_product_details, h]
  · intro p hp
    simp [get_product_details, hp]
  · intro hnk
    cases h : lookupDict db pid with
    | none => simp [get_product_details, h]
    | some p =>
      exact absurd ((lookupDict_isSome db pid).mp (by simp [h])) hnk

/-- Witness for C1 at a concrete catalog: a present key and an absent one. -/
theorem claim1_witness :
    get_product_details sampleCatalog ("1001".toList)
        = some (productOut "1001".toList sampleProduct1) ∧
    get_product_details sampleCatalog ("9999".toList) = none :=
  ⟨(claim1_get_details_exact_match sampleCatalog ("1001".toList)).2.1
      sampleProduct1 (by decide),
   (claim1_get_details_exact_match sampleCatalog ("9999".toList)).2.2 (by decide)⟩

/-- C2 fails as stated: with every score reply `3`, the code includes the
record (it tests `score >= 1`) while the claimed filter against
`min_match_score = 5` excludes it. -/
theorem claim2_counterexample :
    (search_products oracleScore3 [("1001".toList, sampleProduct1)] "q".toList).1
        = [productOut "1001".toList sampleProduct1] ∧
    search_productsClaimed defaultAgentConfig oracleScore3
        [("1001".toList, sampleProduct1)] "q".toList = [] ∧
    (search_products oracleScore3 [("1001".toList, sampleProduct1)] "q".toList).1
        ≠ search_productsClaimed defaultAgentConfig oracleScore3
            [("1001".toList, sampleProduct1)] "q".toList :=
  ⟨rfl, rfl, by decide⟩

/-- C2 amended: a record is included exactly when its score reply parses and
the parsed score is at least the hard-coded `1`; `AgentConfig.min_match_score`
is not consulted. -/
theorem claim2_amended :
    ∀ (model : Oracle) (db : Catalog) (query : Str) (r : ProductOut),
      r ∈ (search_products model db query).1 ↔
        ∃ id p score, (id, p) ∈ db ∧ r = productOut id p ∧
          parseScore (model (scorePrompt p (model (enhancedQueryPrompt query))))
            = some score ∧ 1 ≤ score :=
  fun model db query r => search_products_mem model db query r

/-- C3 fails as stated: on a reply holding the marker twice, the code
extracts the text up to the next marker occurrence, not the text up to the
next double quote. -/
theorem claim3_counterexample :
    pyExtract productIdMarker "product_id=\"abcproduct_id=\"x\"".toList
        = some "abc".toList ∧
    specExtractClaimed productIdMarker "product_id=\"abcproduct_id=\"x\"".toList
        = some "abcproduct_id=".toList ∧
    pyExtract productIdMarker "product_id=\"abcproduct_id=\"x\"".toList
        ≠ specExtractClaimed productIdMarker "product_id=\"abcproduct_id=\"x\"".toList :=
  ⟨by decide, by decide, by decide⟩

/-- C3 amended: the interpreter takes the text after the first marker
occurrence, truncated at the next marker occurrence (if any) and then at the
next double quote (if any); when the marker is absent the extraction fails,
the failure is caught and reported by the handler, and the loop continues to
the next input. -/
theorem claim3_amended :
    (∀ (marker s : Str), marker ≠ [] →
        pyExtract marker s = specExtractActual marker s) ∧
    (∀ (chatModel : Oracle) (db : Catalog) (s : Str),
        findSubstr productIdMarker s = none →
        handle_product_details chatModel db s = (DetailsOutcome.idParseError, [])) ∧
    (∀ (chatModel dbModel : Oracle) (db : Catalog) (s : Str),
        findSubstr searchTermMarker s = none →
        handle_search_products chatModel dbModel db s
          = (SearchOutcome.termParseError, [])) ∧
    (∀ (exec chatModel dbModel : Oracle) (db : Catalog) (line : Str)
        (rest : List Str), pyLower line ≠ exitKeyword →
        run exec chatModel dbModel db (line :: rest)
          = (processTurn exec chatModel dbModel db line ::
              (run exec chatModel dbModel db rest).1,
             (run exec chatModel dbModel db rest).2)) := by
  refine ⟨fun marker s hm => pyExtract_eq_actual hm s, ?_, ?_, ?_⟩
  · intro chatModel db s h
    have hnone : pyExtract productIdMarker s = none :=
      pyExtract_none_of_absent (by decide) h
    simp [handle_product_details, hnone]
  · intro chatModel dbModel db s h
    have hnone : pyExtract searchTermMarker s = none :=
      pyExtract_none_of_absent (by decide) h
    simp [handle_search_products, hnone]
  · intro exec chatModel dbModel db line rest h
    exact run_cons_of_ne h rest

/-- Witness for C3 amended: a well-formed reply where extraction agrees with
the independent description, and a markerless reply where the handler
reports a caught parse error. -/
theorem claim3_witness :
    pyExtract productIdMarker "product_id=\"1001\"".toList
        = specExtractActual productIdMarker "product_id=\"1001\"".toList ∧
    handle_product_details oracleScore5 sampleCatalog "你好".toList
        = (DetailsOutcome.idParseError, []) :=
  ⟨claim3_amended.1 productIdMarker ("product_id=\"1001\"".toList) (by decide),
   claim3_amended.2.1 oracleScore5 sampleCatalog ("你好".toList) (by decide)⟩

/-- C4: over any list of available input lines, `run` terminates via the
exit path exactly when some line, lowercased, equals `退出`; an exit line
breaks immediately, and any other line is processed as one turn after which
the loop reads the next line. -/
theorem claim4_run_exit :
    ∀ (exec chatModel dbModel : Oracle) (db : Catalog) (inputs : List Str),
      ((run exec chatModel dbModel db inputs).2 = true ↔
        ∃ l ∈ inputs, pyLower l = exitKeyword) ∧
      (∀ (line : Str) (rest : List Str), pyLower line = exitKeyword →
          run exec chatModel dbModel db (line :: rest) = ([], true)) ∧
      (∀ (line : Str) (rest : List Str), pyLower line ≠ exitKeyword →
          run exec chatModel dbModel db (line :: rest)
            = (processTurn exec chatModel dbModel db line ::
                (run exec chatModel dbModel db rest).1,
               (run exec chatModel dbModel db rest).2)) := by
  intro exec chatModel dbModel db inputs
  refine ⟨run_true_iff exec chatModel dbModel db inputs, ?_, ?_⟩
  · intro line rest h
    simp [run, h]
  · intro line rest h
    exact run_cons_of_ne h rest

/-- Witness for C4: a session whose second line is the exit keyword
terminates, and one without the keyword does not. -/
theorem claim4_witness :
    (run oracleScore5 oracleScore5 oracleScore5 sampleCatalog
        ["你好".toList, "退出".toList]).2 = true ∧
    (run oracleScore5 oracleScore5 oracleScore5 sampleCatalog
        ["你好".toList]).2 ≠ true :=
  ⟨(claim4_run_exit oracleScore5 oracleScore5 oracleScore5 sampleCatalog
        ["你好".toList, "退出".toList]).1.mpr
      ⟨"退出".toList, by decide, by decide⟩,
   fun h => by
     rcases (claim4_run_exit oracleScore5 oracleScore5 oracleScore5
         sampleCatalog ["你好".toList]).1.mp h with ⟨l, hl, he⟩
     simp only [List.mem_singleton] at hl
     subst hl
     exact absurd he (by decide)⟩


/-- C5 fails as stated: with the API-key variable unset, the `ValueError`
raised in `_load_environment` propagates out of `__init__` and ends the
program before any input is read — it is not caught with the loop
continuing.  The repository's own test `test_load_environment_failure`
asserts this raise. -/
theorem claim5_counterexample :
    programMain none oracleScore5 oracleScore5 oracleScore5 sampleCatalog
        ["你好".toList] = Except.error envErrorMsg := rfl

/-- C5 amended: a missing (or empty) `DEEPSEEK_API_KEY` makes
`_load_environment` raise, the exception propagates uncaught and the
conversation loop never runs; with a non-empty key the program proceeds
into the loop. -/
theorem claim5_amended :
    ∀ (exec chatModel dbModel : Oracle) (db : Catalog) (inputs : List Str),
      programMain none exec chatModel dbModel db inputs
          = Except.error envErrorMsg ∧
      programMain (some []) exec chatModel dbModel db inputs
          = Except.error envErrorMsg ∧
      (∀ v : Str, v ≠ [] →
          programMain (some v) exec chatModel dbModel db inputs
            = Except.ok (run exec chatModel dbModel db inputs)) := by
  intro exec chatModel dbModel db inputs
  refine ⟨rfl, rfl, ?_⟩
  intro v hv
  simp [programMain, load_environment, hv]

/-- Witness for C5 amended: the program errors at startup without a key and
runs the loop with one. -/
theorem claim5_witness :
    programMain none oracleBad oracleBad oracleBad [] []
        = Except.error envErrorMsg ∧
    programMain (some "k".toList) oracleBad oracleBad oracleBad [] []
        = Except.ok (run oracleBad oracleBad oracleBad [] []) :=
  ⟨(claim5_amended oracleBad oracleBad oracleBad [] []).1,
   (claim5_amended oracleBad oracleBad oracleBad [] []).2.2 "k".toList (by decide)⟩

/-- C6: a candidate whose score reply fails to parse is skipped — the search
result equals the result over the catalog without that candidate, and (when
its identifier is not stored elsewhere) the candidate's record is absent
from the result; `search_products` is total, so no exception escapes. -/
theorem claim6_malformed_score_skipped :
    ∀ (model : Oracle) (query : Str) (pre post : Catalog) (id : Str)
      (p : Product),
      parseScore (model (scorePrompt p (model (enhancedQueryPrompt query))))
          = none →
      (search_products model (pre ++ (id, p) :: post) query).1
          = (search_products model (pre ++ post) query).1 ∧
      (id ∉ catalogKeys (pre ++ post) →
          productOut id p ∉ (search_products model (pre ++ (id, p) :: post) query).1) := by
  intro model query pre post id p hbad
  constructor
  · rw [search_products, search_products]
    exact scoreLoop_skip model _ hbad pre post
  · intro hnk hmem
    rw [search_products_mem] at hmem
    rcases hmem with ⟨id', p', sc, hmem', hr, hps, h1⟩
    have hid : id = id' := congrArg ProductOut.id hr
    have hsplit : (id', p') ∈ pre ++ post ∨ (id', p') = (id, p) := by
      rcases List.mem_append.mp hmem' with h | h
      · exact Or.inl (List.mem_append.mpr (Or.inl h))
      · rcases List.mem_cons.mp h with h | h
        · exact Or.inr h
        · exact Or.inl (List.mem_append.mpr (Or.inr h))
    rcases hsplit with h | h
    · have : id' ∈ catalogKeys (pre ++ post) := List.mem_map_of_mem Prod.fst h
      exact hnk (hid ▸ this)
    · have hp : p' = p := (Prod.mk.injEq _ _ _ _ ▸ h).2
      rw [hp, hbad] at hps
      cases hps

/-- Witness for C6: with a never-parsing oracle, searching a two-item
catalog equals searching it without the first item. -/
theorem claim6_witness :
    (search_products oracleBad
        [("1001".toList, sampleProduct1), ("1002".toList, sampleProduct2)]
        "q".toList).1
      = (search_products oracleBad [("1002".toList, sampleProduct2)]
          "q".toList).1 :=
  (claim6_malformed_score_skipped oracleBad "q".toList []
      [("1002".toList, sampleProduct2)] "1001".toList sampleProduct1
      (by decide)).1

/-- C7 fails as stated: a search over the two-item sample catalog sends 3
prompts to the model (one query enhancement plus one score per candidate),
not `2 * 2`. -/
theorem claim7_counterexample :
    (search_products oracleScore5 sampleCatalog "手机".toList).2.length
        ≠ 2 * sampleCatalog.length ∧
    (search_products oracleScore5 sampleCatalog "手机".toList).2.length
        = sampleCatalog.length + 1 :=
  ⟨by decide, by decide⟩

/-- C7 amended: per search over `n` candidates the store sends exactly
`n + 1` prompts to the model — one query-enhancement prompt followed by one
scoring prompt per candidate. -/
theorem claim7_amended :
    ∀ (model : Oracle) (db : Catalog) (query : Str),
      (search_products model db query).2
        = enhancedQueryPrompt query ::
            db.map (fun e => scorePrompt e.2 (model (enhancedQueryPrompt query))) ∧
      (search_products model db query).2.length = db.length + 1 := by
  intro model db query
  have h := scoreLoop_calls model (model (enhancedQueryPrompt query)) db
  constructor
  · show enhancedQueryPrompt query ::
        (scoreLoop model (model (enhancedQueryPrompt query)) db).2 = _
    rw [h]
  · show (enhancedQueryPrompt query ::
        (scoreLoop model (model (enhancedQueryPrompt query)) db).2).length
          = db.length + 1
    rw [h]
    simp

/-- C8: neither store operation changes the catalog state, and every
returned record is a fresh `{"id": id, **product}` value built from a
stored entry's fields. -/
theorem claim8_catalog_immutable :
    ∀ (model : Oracle) (db : Catalog) (query pid : Str),
      (search_productsST model db query).2 = db ∧
      (get_product_detailsST db pid).2 = db ∧
      (∀ r, r ∈ (search_productsST model db query).1.1 →
          ∃ id p, (id, p) ∈ db ∧ r = productOut id p) ∧
      (∀ r, (get_product_detailsST db pid).1 = some r →
          ∃ p, (pid, p) ∈ db ∧ r = productOut pid p) := by
  intro model db query pid
  refine ⟨rfl, rfl, ?_, ?_⟩
  · intro r hr
    rw [show (search_productsST model db query).1.1
          = (search_products model db query).1 from rfl,
      search_products_mem] at hr
    rcases hr with ⟨id, p, sc, hmem, hr, _, _⟩
    exact ⟨id, p, hmem, hr⟩
  · intro r hr
    have hr' : get_product_details db pid = some r := hr
    cases hl : lookupDict db pid with
    | none => simp [get_product_details, hl] at hr'
    | some p =>
      simp only [get_product_details, hl, Option.some.injEq] at hr'
      exact ⟨p, lookupDict_mem hl, hr'.symm⟩

/-- Witness for C8: the sample catalog is returned unchanged and a concrete
returned record is a copy of a stored entry. -/
theorem claim8_witness :
    (search_productsST oracleScore5 sampleCatalog "q".toList).2 = sampleCatalog ∧
    ∃ id p, (id, p) ∈ sampleCatalog ∧
      productOut "1001".toList sampleProduct1 = productOut id p :=
  ⟨(claim8_catalog_immutable oracleScore5 sampleCatalog "q".toList
      "1001".toList).1,
   (claim8_catalog_immutable oracleScore5 sampleCatalog "q".toList
      "1001".toList).2.2.1 (productOut "1001".toList sampleProduct1) (by decide)⟩

/-- C9: a reply naming `get_product_details` always dispatches to the
details handler (even when `search_products` also occurs); the search
handler runs exactly when `search_products` occurs and
`get_product_details` does not. -/
theorem claim9_dispatch_details_first :
    ∀ (exec chatModel dbModel : Oracle) (db : Catalog) (line : Str),
      (occursIn detailsToolName (exec line) = true →
          processTurn exec chatModel dbModel db line
            = TurnResult.details
                (handle_product_details chatModel db (exec line)).1
                (handle_product_details chatModel db (exec line)).2) ∧
      ((∃ o cs, processTurn exec chatModel dbModel db line
            = TurnResult.search o cs) ↔
          (occursIn searchToolName (exec line) = true ∧
           occursIn detailsToolName (exec line) = false)) := by
  intro exec chatModel dbModel db line
  constructor
  · intro h
    simp [processTurn, dispatchOutput, h]
  · constructor
    · rintro ⟨o, cs, hpt⟩
      by_cases h1 : occursIn detailsToolName (exec line) = true
      · simp [processTurn, dispatchOutput, h1] at hpt
      · by_cases h2 : occursIn searchToolName (exec line) = true
        · exact ⟨h2, by simpa using h1⟩
        · simp [processTurn, dispatchOutput, h1, h2] at hpt
    · rintro ⟨h2, h1⟩
      refine ⟨(handle_search_products chatModel dbModel db (exec line)).1,
        (handle_search_products chatModel dbModel db (exec line)).2, ?_⟩
      simp [processTurn, dispatchOutput, h1, h2]

/-- Witness for C9: a reply naming both tools is dispatched to the details
handler. -/
theorem claim9_witness :
    processTurn oracleBothTools oracleScore5 oracleScore5 sampleCatalog
        "hi".toList
      = TurnResult.details
          (handle_product_details oracleScore5 sampleCatalog
            (oracleBothTools "hi".toList)).1
          (handle_product_details oracleScore5 sampleCatalog
            (oracleBothTools "hi".toList)).2 :=
  (claim9_dispatch_details_first oracleBothTools oracleScore5 oracleScore5
      sampleCatalog "hi".toList).1 (by decide)

/-- C10: when the extracted search term is the empty string, the handler
reports that no valid keyword was obtained, sends no prompt to the model,
and never invokes `search_products`. -/
theorem claim10_empty_term_no_search :
    ∀ (chatModel dbModel : Oracle) (db : Catalog) (output : Str),
      pyExtract searchTermMarker output = some [] →
      handle_search_products chatModel dbModel db output
        = (SearchOutcome.noKeyword, []) := by
  intro chatModel dbModel db output h
  simp [handle_search_products, h]

/-- Witness for C10 at the literal reply `search_products(search_term="")`. -/
theorem claim10_witness :
    handle_search_products oracleScore5 oracleScore5 sampleCatalog
        "search_products(search_term=\"\")".toList
      = (SearchOutcome.noKeyword, []) :=
  claim10_empty_term_no_search oracleScore5 oracleScore5 sampleCatalog
    ("search_products(search_term=\"\")".toList) (by decide)
